import Mathlib

/-!
Verification of the sticker raster engine of this repository.

The engine is the function addStickerOutline: given a loaded cutout image of
size sw × sh and a StickerSettings value, it sizes a canvas, dilates the
source silhouette by stamping translated copies of the source at 72 angles
over shrinking rings, recolors the dilated mask with the outline color via a
source-in fill, and finally draws the source centered with an optional
shadow preset, encoding the result to PNG.

The embedding below mirrors that code over exact rationals.  The host
runtime's floating-point sine, cosine and pi are modeled as an abstract
Host record of rational-valued functions: every property proved here holds
for any values of those functions, which is faithful because the source
only ever feeds angles through them and never relies on trigonometric
identities.  Host also carries the three availability flags of the code's
failure points (image load, 2d context, PNG encode).  The drawing work is
modeled as the trace of canvas operations the code issues, in order; the
pixel semantics of the one compositing step the claims inspect (the
source-in fill with an opaque fill style) is modeled separately, following
the Porter-Duff source-in operator on premultiplied pixels used by the
HTML canvas.  Canvas dimensions are kept as exact rationals, matching the
source expressions; the host's rounding of the width/height attributes is
not part of the source text.
-/

namespace StickerMaker

/-- Outline style pills of the UI; matches the OutlineStyle union type. -/
inductive OutlineStyle
  | solid
  | wobbly
  | chaotic
  | wavy
deriving DecidableEq

/-- Shadow style pills of the UI; matches the ShadowStyle union type. -/
inductive ShadowStyle
  | none
  | soft
  | hard
  | float
deriving DecidableEq

/-- One sinusoidal term: angular frequency and amplitude (WaveParams). -/
structure WaveParams where
  freq : ℚ
  amp : ℚ
deriving DecidableEq

/-- Flat RGB color, straight (non-premultiplied) channels. -/
structure Color where
  r : ℚ
  g : ℚ
  b : ℚ
deriving DecidableEq

/-- The settings record passed to addStickerOutline (StickerSettings). -/
structure StickerSettings where
  outlineWidth : ℚ
  outlineColor : Color
  outlineStyle : OutlineStyle
  wave1 : WaveParams
  wave2 : WaveParams
  wave3 : WaveParams
  masterAmp : ℚ
  shadowStyle : ShadowStyle
deriving DecidableEq

/-- Abstract host runtime: rational-valued stand-ins for the float math
functions Math.sin, Math.cos and Math.PI, plus the three availability
flags of the code's failure points (image decode, 2d context, PNG blob). -/
structure Host where
  sin : ℚ → ℚ
  cos : ℚ → ℚ
  pi : ℚ
  imgOk : Bool
  ctxOk : Bool
  encodeOk : Bool

/-- Extra padding reserved for the wobble, from the line
wobbleExtra = outlineStyle !== solid ? w * masterAmp * (a1 + a2 + a3) : 0. -/
def wobbleExtra (S : StickerSettings) : ℚ :=
  if S.outlineStyle = OutlineStyle.solid then 0
  else S.outlineWidth * S.masterAmp * (S.wave1.amp + S.wave2.amp + S.wave3.amp)

/-- Padding on each side of the source, from pad = max(w + wobbleExtra + 4, 4). -/
def pad (S : StickerSettings) : ℚ :=
  max (S.outlineWidth + wobbleExtra S + 4) 4

/-- Fixed extra margin when any shadow is active, from
shadowPad = shadowStyle !== none ? 30 : 0. -/
def shadowPad (S : StickerSettings) : ℚ :=
  if S.shadowStyle = ShadowStyle.none then 0 else 30

/-- Canvas width, from canvas.width = img.width + pad * 2 + shadowPad. -/
def canvasWidth (sw : ℚ) (S : StickerSettings) : ℚ :=
  sw + pad S * 2 + shadowPad S

/-- Canvas height, from canvas.height = img.height + pad * 2 + shadowPad. -/
def canvasHeight (sh : ℚ) (S : StickerSettings) : ℚ :=
  sh + pad S * 2 + shadowPad S

/-- Top-left position of a draw of the source at offset (ox, oy), from
drawAt: ctx.drawImage(img, cx - img.width / 2 + ox, cy - img.height / 2 + oy)
with cx = canvas.width / 2 and cy = canvas.height / 2. -/
def drawPos (sw sh : ℚ) (S : StickerSettings) (ox oy : ℚ) : ℚ × ℚ :=
  (canvasWidth sw S / 2 - sw / 2 + ox, canvasHeight sh S / 2 - sh / 2 + oy)

/-- Sampled angle number i of the 72 evenly spaced angles, from
a = (2 * Math.PI * i) / steps with steps = 72. -/
def angleOf (H : Host) (i : ℕ) : ℚ :=
  2 * H.pi * (i : ℚ) / 72

/-- Signed radial perturbation at an angle, from the closure
wobble(a) = (sin(a*f1)*a1 + cos(a*f2)*a2 + sin(a*f3 + 1.5)*a3) * masterAmp. -/
def wobble (H : Host) (S : StickerSettings) (a : ℚ) : ℚ :=
  (H.sin (a * S.wave1.freq) * S.wave1.amp +
   H.cos (a * S.wave2.freq) * S.wave2.amp +
   H.sin (a * S.wave3.freq + 1.5) * S.wave3.amp) * S.masterAmp

/-- Fuel-indexed unfolding of a countdown loop over rationals: the radii
visited by for (let r = start; r > 0; r -= 2), provided the fuel bounds the
iteration count. -/
def ringRadii : ℕ → ℚ → List ℚ
  | 0, _ => []
  | n + 1, r => if 0 < r then r :: ringRadii n (r - 2) else []

/-- Fuel sufficient for ringRadii to run the countdown loop to completion:
the loop starting at r runs at most numerator-of-r many steps. -/
def ringFuel (r : ℚ) : ℕ :=
  r.num.toNat + 1

/-- Radii visited by the countdown loop for (let r = start; r > 0; r -= 2),
in visit order. -/
def radsFrom (r : ℚ) : List ℚ :=
  ringRadii (ringFuel r) r

/-- One translated stamp of the source alpha: the (ox, oy) argument pair the
code passes to drawAt while dilating. -/
structure Stamp where
  ox : ℚ
  oy : ℚ
deriving DecidableEq

/-- One full ring of 72 stamps at a fixed radius, from the inner loop
for (i = 0; i < steps; i++) drawAt(Math.cos(a) * r, Math.sin(a) * r). -/
def solidRing (H : Host) (r : ℚ) : List Stamp :=
  (List.range 72).map fun i =>
    Stamp.mk (H.cos (angleOf H i) * r) (H.sin (angleOf H i) * r)

/-- Ring radii of the solid branch, in stamp order: the dedicated outermost
ring at the full outline width, then the loop
for (let r = w - 1; r > 0; r -= 2). -/
def solidRingRadii (S : StickerSettings) : List ℚ :=
  S.outlineWidth :: radsFrom (S.outlineWidth - 1)

/-- Full stamp trace of the solid branch: the outermost ring at radius w
first, then the rings of for (let r = w - 1; r > 0; r -= 2). -/
def solidStamps (H : Host) (S : StickerSettings) : List Stamp :=
  solidRing H S.outlineWidth ++
    (radsFrom (S.outlineWidth - 1)).flatMap (solidRing H)

/-- Solid-branch ring radii as claim C3 words them: the outermost ring at
the full outline width first, then rings at radii stepping from
outlineWidth itself down to just above 0 in steps of 2.  Stated for
comparison with solidRingRadii, the sequence the code actually visits. -/
def specSolidRingRadii (S : StickerSettings) : List ℚ :=
  S.outlineWidth :: radsFrom S.outlineWidth

/-- Sampled radius of the wave branch at ring radius rad and angle number i,
from r = rad * Math.max(0.05, 1 + wobble(a) * scale) with scale = rad / w. -/
def waveRadius (H : Host) (S : StickerSettings) (rad : ℚ) (i : ℕ) : ℚ :=
  rad * max 0.05 (1 + wobble H S (angleOf H i) * (rad / S.outlineWidth))

/-- One full ring of 72 wave stamps at ring radius rad. -/
def waveRingStamps (H : Host) (S : StickerSettings) (rad : ℚ) : List Stamp :=
  (List.range 72).map fun i =>
    Stamp.mk (H.cos (angleOf H i) * waveRadius H S rad i)
      (H.sin (angleOf H i) * waveRadius H S rad i)

/-- Outer boundary loop of the wave branch, written in the code without the
ring scale: r = w * Math.max(0.05, 1 + wobble(a)). -/
def waveOuterStamps (H : Host) (S : StickerSettings) : List Stamp :=
  (List.range 72).map fun i =>
    Stamp.mk
      (H.cos (angleOf H i) *
        (S.outlineWidth * max 0.05 (1 + wobble H S (angleOf H i))))
      (H.sin (angleOf H i) *
        (S.outlineWidth * max 0.05 (1 + wobble H S (angleOf H i))))

/-- Full stamp trace of the wave branch: the outer boundary loop, then the
rings of for (let rad = w; rad > 0; rad -= 2) with scale = rad / w. -/
def waveStamps (H : Host) (S : StickerSettings) : List Stamp :=
  waveOuterStamps H S ++
    (radsFrom S.outlineWidth).flatMap (waveRingStamps H S)

/-- Shadow parameters of one preset: blur, offset and shadow color with its
alpha, as set on the 2d context. -/
structure ShadowParams where
  blur : ℚ
  offsetX : ℚ
  offsetY : ℚ
  color : Color
  alpha : ℚ
deriving DecidableEq

/-- Preset lookup, from the shadowStyle if-chain: soft is black 0.2 blur 16
offset (0, 4); hard is black 0.35 blur 2 offset (3, 5); float is black 0.18
blur 28 offset (0, 12); none sets no shadow state. -/
def shadowPreset : ShadowStyle → Option ShadowParams
  | ShadowStyle.none => Option.none
  | ShadowStyle.soft => some (ShadowParams.mk 16 0 4 (Color.mk 0 0 0) 0.2)
  | ShadowStyle.hard => some (ShadowParams.mk 2 3 5 (Color.mk 0 0 0) 0.35)
  | ShadowStyle.float => some (ShadowParams.mk 28 0 12 (Color.mk 0 0 0) 0.18)

/-- One canvas operation issued by addStickerOutline, in issue order:
a dilation stamp (a source-over draw of the source at an offset), the
source-in fill of the whole canvas with the outline color, or the final
draw of the source at offset (0, 0) with the active shadow state. -/
inductive Op
  | stamp (st : Stamp)
  | fillSourceIn (c : Color)
  | drawTop (shadow : Option ShadowParams)
deriving DecidableEq

/-- Operations of the two outline branches: each branch is guarded by its
style test and by w > 0, stamps its dilation trace, then fills it with the
outline color under source-in compositing. -/
def outlineOps (H : Host) (S : StickerSettings) : List Op :=
  (if S.outlineStyle = OutlineStyle.solid ∧ 0 < S.outlineWidth then
    (solidStamps H S).map Op.stamp ++ [Op.fillSourceIn S.outlineColor]
  else []) ++
  (if S.outlineStyle ≠ OutlineStyle.solid ∧ 0 < S.outlineWidth then
    (waveStamps H S).map Op.stamp ++ [Op.fillSourceIn S.outlineColor]
  else [])

/-- Result of a successful generation: the canvas dimensions and the full
ordered operation trace. -/
structure Render where
  width : ℚ
  height : ℚ
  ops : List Op
deriving DecidableEq

/-- Whole-canvas plan and trace of addStickerOutline for a loaded source of
size sw × sh: size the canvas, run the guarded outline branches, then draw
the source once at offset (0, 0) with the shadow preset active. -/
def render (H : Host) (sw sh : ℚ) (S : StickerSettings) : Render :=
  Render.mk (canvasWidth sw S) (canvasHeight sh S)
    (outlineOps H S ++ [Op.drawTop (shadowPreset S.shadowStyle)])

/-- Failure modes of addStickerOutline: image decode failure (img.onerror),
missing 2d context, and toBlob returning null. -/
inductive GenError
  | imageLoadFailed
  | surfaceUnavailable
  | encodeFailed
deriving DecidableEq

/-- The promise returned by addStickerOutline: reject on image load failure,
on a missing 2d context, or on a failed PNG encode; otherwise resolve with
the rendered output. -/
def generate (H : Host) (sw sh : ℚ) (S : StickerSettings) :
    Except GenError Render :=
  if H.imgOk = false then Except.error GenError.imageLoadFailed
  else if H.ctxOk = false then Except.error GenError.surfaceUnavailable
  else if H.encodeOk = false then Except.error GenError.encodeFailed
  else Except.ok (render H sw sh S)

/-- Premultiplied RGBA pixel, the canvas backing-store representation. -/
structure Pma where
  r : ℚ
  g : ℚ
  b : ℚ
  a : ℚ
deriving DecidableEq

/-- Porter-Duff source-in on premultiplied pixels, the semantics of
globalCompositeOperation = source-in: the source is kept only where the
destination has coverage, the destination contributes nothing. -/
def sourceInPx (src dst : Pma) : Pma :=
  Pma.mk (src.r * dst.a) (src.g * dst.a) (src.b * dst.a) (src.a * dst.a)

/-- Fully opaque premultiplied pixel of a flat fill color: fillStyle is set
to an opaque hex color in the code. -/
def opaquePx (c : Color) : Pma :=
  Pma.mk c.r c.g c.b 1

/-- Pixel semantics of the fill step (lines setting source-in, fillStyle and
fillRect over the whole canvas): every pixel of the layer is replaced by the
opaque fill color composited source-in over it. -/
def fillRectSourceIn (c : Color) (layer : ℤ × ℤ → Pma) : ℤ × ℤ → Pma :=
  fun p => sourceInPx (opaquePx c) (layer p)

/-- Straight (non-premultiplied) color channels of a pixel. -/
def straightColor (px : Pma) : Color :=
  Color.mk (px.r / px.a) (px.g / px.a) (px.b / px.a)

/-- Concrete host used for witnesses and counterexamples: any rational
stand-ins for the trig functions are admissible. -/
def H0 : Host :=
  Host.mk (fun _ => 0) (fun _ => 1) 3 true true true

/-- White, the default outline color. -/
def white : Color :=
  Color.mk 1 1 1

/-- Default settings of the UI: solid 8 px white outline, no shadow. -/
def Ssolid8 : StickerSettings :=
  StickerSettings.mk 8 white OutlineStyle.solid
    (WaveParams.mk 2 1.2) (WaveParams.mk 3.5 0.8) (WaveParams.mk 7 0.3)
    2 ShadowStyle.none

/-- Wobbly-preset settings with a thin 2 px outline, no shadow. -/
def Swob2 : StickerSettings :=
  StickerSettings.mk 2 white OutlineStyle.wobbly
    (WaveParams.mk 2 1.2) (WaveParams.mk 3.5 0.8) (WaveParams.mk 7 0.3)
    2 ShadowStyle.none

/-- Chaotic-preset settings with outline width zero and a soft shadow. -/
def Szero : StickerSettings :=
  StickerSettings.mk 0 white OutlineStyle.chaotic
    (WaveParams.mk 4 1.5) (WaveParams.mk 9 1.2) (WaveParams.mk 17 0.8)
    3 ShadowStyle.soft

/-- Wobbly-style settings with integer wave amplitudes, used where a
witness must discharge sign conditions by kernel evaluation. -/
def Sint : StickerSettings :=
  StickerSettings.mk 8 white OutlineStyle.wobbly
    (WaveParams.mk 2 1) (WaveParams.mk 3 1) (WaveParams.mk 7 1)
    2 ShadowStyle.none

/-- Default solid settings with the float shadow preset. -/
def SfloatEx : StickerSettings :=
  StickerSettings.mk 8 white OutlineStyle.solid
    (WaveParams.mk 2 1.2) (WaveParams.mk 3.5 0.8) (WaveParams.mk 7 0.3)
    2 ShadowStyle.float

/-- Fully covered red layer used as a concrete dilated silhouette. -/
def redLayer : ℤ × ℤ → Pma :=
  fun _ => Pma.mk 1 0 0 1

/-- Helper: a rational is at most the cast of the truncated numerator. -/
theorem rat_le_num_toNat (r : ℚ) : r ≤ (r.num.toNat : ℚ) := by
  by_cases h : 0 ≤ r.num
  · have hcast : ((r.num.toNat : ℕ) : ℚ) = (r.num : ℚ) := by
      exact_mod_cast Int.toNat_of_nonneg h
    have hden : (1 : ℚ) ≤ (r.den : ℚ) := by
      exact_mod_cast Nat.one_le_iff_ne_zero.mpr r.den_nz
    have hnum : (0 : ℚ) ≤ (r.num : ℚ) := by exact_mod_cast h
    calc r = (r.num : ℚ) / (r.den : ℚ) := (Rat.num_div_den r).symm
      _ ≤ (r.num : ℚ) := div_le_self hnum hden
      _ = (r.num.toNat : ℚ) := by exact_mod_cast hcast.symm
  · push_neg at h
    have hr : r < 0 := by
      by_contra hge
      push_neg at hge
      exact absurd (Rat.num_nonneg.mpr hge) (not_le.mpr h)
    calc r ≤ 0 := hr.le
      _ ≤ (r.num.toNat : ℚ) := by positivity

/-- Helper: ringFuel bounds half the countdown start, so the loop always
terminates by its guard rather than by fuel exhaustion. -/
theorem le_two_ringFuel (r : ℚ) : r ≤ 2 * (ringFuel r : ℚ) := by
  have h := rat_le_num_toNat r
  have h0 : (0 : ℚ) ≤ (r.num.toNat : ℚ) := by positivity
  have : (ringFuel r : ℚ) = (r.num.toNat : ℚ) + 1 := by
    unfold ringFuel
    push_cast
    ring
  rw [this]
  linarith

/-- Helper: ringRadii is fuel-independent once the fuel bounds half the
countdown start. -/
theorem ringRadii_congr :
    ∀ (n m : ℕ) (r : ℚ), r ≤ 2 * (n : ℚ) → r ≤ 2 * (m : ℚ) →
      ringRadii n r = ringRadii m r := by
  intro n
  induction n with
  | zero =>
    intro m r hn _
    have hr : ¬ 0 < r := by
      push_cast at hn
      intro h
      linarith
    cases m with
    | zero => rfl
    | succ m =>
      show ringRadii 0 r = ringRadii (m + 1) r
      simp only [ringRadii]
      rw [if_neg hr]
  | succ n ih =>
    intro m r hn hm
    cases m with
    | zero =>
      have hr : ¬ 0 < r := by
        push_cast at hm
        intro h
        linarith
      simp only [ringRadii]
      rw [if_neg hr]
    | succ m =>
      simp only [ringRadii]
      by_cases hr : 0 < r
      · rw [if_pos hr, if_pos hr]
        have h1 : r - 2 ≤ 2 * (n : ℚ) := by
          push_cast at hn ⊢
          linarith
        have h2 : r - 2 ≤ 2 * (m : ℚ) := by
          push_cast at hm ⊢
          linarith
        rw [ih m (r - 2) h1 h2]
      · rw [if_neg hr, if_neg hr]

/-- Helper: defining recurrence of radsFrom, showing the fuel-indexed list
computes exactly the countdown loop for (let r = start; r > 0; r -= 2). -/
theorem radsFrom_rec (r : ℚ) :
    radsFrom r = if 0 < r then r :: radsFrom (r - 2) else [] := by
  by_cases h : 0 < r
  · rw [if_pos h]
    show ringRadii (r.num.toNat + 1) r = _
    simp only [ringRadii]
    rw [if_pos h]
    congr 1
    apply ringRadii_congr
    · have h1 := rat_le_num_toNat r
      have h0 : (0 : ℚ) ≤ (r.num.toNat : ℚ) := by positivity
      linarith
    · exact le_two_ringFuel (r - 2)
  · rw [if_neg h]
    show ringRadii (r.num.toNat + 1) r = []
    simp only [ringRadii]
    rw [if_neg h]

/-- Helper: every radius the countdown loop visits is positive. -/
theorem ringRadii_pos :
    ∀ (n : ℕ) (r x : ℚ), x ∈ ringRadii n r → 0 < x := by
  intro n
  induction n with
  | zero =>
    intro r x hx
    simp [ringRadii] at hx
  | succ n ih =>
    intro r x hx
    simp only [ringRadii] at hx
    by_cases hr : 0 < r
    · rw [if_pos hr] at hx
      rcases List.mem_cons.mp hx with h | h
      · rwa [h]
      · exact ih _ _ h
    · rw [if_neg hr] at hx
      simp at hx

/-- Helper: the last operation of a non-empty trace built by appending one
final draw. -/
theorem getLast_append_singleton {α : Type} (l : List α) (a : α) :
    (l ++ [a]).getLast? = some a := by
  exact List.getLast?_concat l

/-- C1: for every source of width sw and height sh and every settings value,
the canvas is sw + 2·pad + shadowPad wide and sh + 2·pad + shadowPad high,
with pad = max(outlineWidth + wobbleExtra + 4, 4), wobbleExtra zero for the
solid style and outlineWidth·masterAmp·(amp1 + amp2 + amp3) otherwise, and
shadowPad zero without a shadow and 30 otherwise; the final draw of the
source at offset (0, 0) sits centered in this buffer. -/
theorem canvas_dimensions (H : Host) (sw sh : ℚ) (S : StickerSettings) :
    (render H sw sh S).width =
      sw + 2 * max (S.outlineWidth +
        (if S.outlineStyle = OutlineStyle.solid then 0
         else S.outlineWidth * S.masterAmp *
           (S.wave1.amp + S.wave2.amp + S.wave3.amp)) + 4) 4 +
      (if S.shadowStyle = ShadowStyle.none then 0 else 30) ∧
    (render H sw sh S).height =
      sh + 2 * max (S.outlineWidth +
        (if S.outlineStyle = OutlineStyle.solid then 0
         else S.outlineWidth * S.masterAmp *
           (S.wave1.amp + S.wave2.amp + S.wave3.amp)) + 4) 4 +
      (if S.shadowStyle = ShadowStyle.none then 0 else 30) ∧
    drawPos sw sh S 0 0 =
      ((canvasWidth sw S - sw) / 2, (canvasHeight sh S - sh) / 2) ∧
    (render H sw sh S).ops.getLast? =
      some (Op.drawTop (shadowPreset S.shadowStyle)) := by
  refine ⟨?_, ?_, ?_, ?_⟩
  · simp only [render, canvasWidth, pad, shadowPad, wobbleExtra]
    ring
  · simp only [render, canvasHeight, pad, shadowPad, wobbleExtra]
    ring
  · simp only [drawPos, Prod.mk.injEq]
    constructor <;> ring
  · exact getLast_append_singleton _ _

/-- C4: with outlineWidth = 0 both outline branches are skipped regardless of
style and wave settings, so the trace is exactly one shadow-composited draw
of the original image — no outline stamping and no outline fill occur. -/
theorem zero_width_original_only (H : Host) (sw sh : ℚ) (S : StickerSettings)
    (h : S.outlineWidth = 0) :
    (render H sw sh S).ops = [Op.drawTop (shadowPreset S.shadowStyle)] := by
  have h0 : ¬ 0 < S.outlineWidth := by
    rw [h]
    exact lt_irrefl 0
  simp [render, outlineOps, h0]

/-- Witness for C4 at a chaotic-style, soft-shadow settings value whose
outline width is zero. -/
theorem zero_width_original_only_witness :
    (render H0 5 7 Szero).ops = [Op.drawTop (shadowPreset Szero.shadowStyle)] :=
  zero_width_original_only H0 5 7 Szero rfl

/-- C8: the generator is pure in its inputs: on the same host, identical
cutout dimensions and identical settings produce identical output. -/
theorem generator_deterministic (H : Host) (sw₁ sh₁ : ℚ)
    (S₁ : StickerSettings) (sw₂ sh₂ : ℚ) (S₂ : StickerSettings)
    (hw : sw₁ = sw₂) (hh : sh₁ = sh₂) (hS : S₁ = S₂) :
    generate H sw₁ sh₁ S₁ = generate H sw₂ sh₂ S₂ := by
  rw [hw, hh, hS]

/-- Witness for C8 at the default settings on a 100 × 80 source. -/
theorem generator_deterministic_witness :
    generate H0 100 80 Ssolid8 = generate H0 100 80 Ssolid8 :=
  generator_deterministic H0 100 80 Ssolid8 100 80 Ssolid8 rfl rfl rfl

/-- C10: once the image is loaded and a drawing context and encoder are
available, the generator succeeds for every settings value: it returns the
rendered trace, the pad floor keeps each canvas dimension at least 8 pixels
larger than the source, and outlineWidth ≤ 0 skips both outline branches. -/
theorem settings_never_fail (H : Host) (sw sh : ℚ) (S : StickerSettings)
    (h1 : H.imgOk = true) (h2 : H.ctxOk = true) (h3 : H.encodeOk = true) :
    generate H sw sh S = Except.ok (render H sw sh S) ∧
    sw + 8 ≤ (render H sw sh S).width ∧
    sh + 8 ≤ (render H sw sh S).height ∧
    (S.outlineWidth ≤ 0 → outlineOps H S = []) := by
  have hp : (4 : ℚ) ≤ pad S := le_max_right _ _
  have hs : (0 : ℚ) ≤ shadowPad S := by
    unfold shadowPad
    split <;> norm_num
  refine ⟨?_, ?_, ?_, ?_⟩
  · simp [generate, h1, h2, h3]
  · simp only [render, canvasWidth]
    linarith
  · simp only [render, canvasHeight]
    linarith
  · intro h
    have h0 : ¬ 0 < S.outlineWidth := not_lt.mpr h
    simp [outlineOps, h0]

/-- Witness for C10 at the default settings on a 100 × 80 source. -/
theorem settings_never_fail_witness :
    generate H0 100 80 Ssolid8 = Except.ok (render H0 100 80 Ssolid8) ∧
    (100 : ℚ) + 8 ≤ (render H0 100 80 Ssolid8).width ∧
    (80 : ℚ) + 8 ≤ (render H0 100 80 Ssolid8).height ∧
    (Ssolid8.outlineWidth ≤ 0 → outlineOps H0 Ssolid8 = []) :=
  settings_never_fail H0 100 80 Ssolid8 rfl rfl rfl

/-- C2: for wave styles with positive outline width the branch trace
consists of full 72-stamp rings at ring radii w, then w, w − 2, ... down to
just above 0, where the stamp at angle number i of the ring at radius rad
uses the sampled radius rad · max(0.05, 1 + wobble(angle)·(rad / w)); every
visited ring radius is positive and for every positive ring radius and
every angle the sampled radius is at least 0.05 times the ring radius. -/
theorem wave_radius_floor (H : Host) (S : StickerSettings)
    (hs : S.outlineStyle ≠ OutlineStyle.solid) (hw : 0 < S.outlineWidth) :
    outlineOps H S =
      (waveStamps H S).map Op.stamp ++ [Op.fillSourceIn S.outlineColor] ∧
    waveStamps H S =
      waveRingStamps H S S.outlineWidth ++
        (radsFrom S.outlineWidth).flatMap (waveRingStamps H S) ∧
    (∀ rad ∈ S.outlineWidth :: radsFrom S.outlineWidth, 0 < rad) ∧
    (∀ rad : ℚ, 0 < rad → ∀ i : ℕ, 0.05 * rad ≤ waveRadius H S rad i) := by
  refine ⟨?_, ?_, ?_, ?_⟩
  · simp [outlineOps, hs, hw]
  · unfold waveStamps
    congr 1
    unfold waveOuterStamps waveRingStamps
    apply List.map_congr_left
    intro i _
    have hdiv : S.outlineWidth / S.outlineWidth = 1 := div_self hw.ne'
    simp [waveRadius, hdiv]
  · intro rad hrad
    rcases List.mem_cons.mp hrad with h | h
    · rwa [h]
    · exact ringRadii_pos _ _ _ h
  · intro rad hrad i
    unfold waveRadius
    calc (0.05 : ℚ) * rad = rad * 0.05 := by ring
      _ ≤ rad * max 0.05
            (1 + wobble H S (angleOf H i) * (rad / S.outlineWidth)) :=
          mul_le_mul_of_nonneg_left (le_max_left _ _) hrad.le

/-- Witness for C2 at the wobbly preset with a 2 px outline: the structured
ring decomposition holds and the sampled radius at ring radius 2, angle
number 0 is at least 0.05 · 2. -/
theorem wave_radius_floor_witness :
    waveStamps H0 Swob2 =
      waveRingStamps H0 Swob2 Swob2.outlineWidth ++
        (radsFrom Swob2.outlineWidth).flatMap (waveRingStamps H0 Swob2) ∧
    (0.05 : ℚ) * 2 ≤ waveRadius H0 Swob2 2 0 :=
  ⟨(wave_radius_floor H0 Swob2 (by decide) (by decide)).2.1,
   (wave_radius_floor H0 Swob2 (by decide) (by decide)).2.2.2 2 (by decide) 0⟩

/-- C3 (amended): for the solid style with positive outline width, the
branch stamps the outermost ring at radius outlineWidth first at all 72
angles, then rings at radii stepping from outlineWidth − 1 (not from
outlineWidth) down to just above 0 in steps of 2, each ring at all 72
angles at offsets (cos(angle)·r, sin(angle)·r). -/
theorem solid_ring_order (H : Host) (S : StickerSettings)
    (hs : S.outlineStyle = OutlineStyle.solid) (hw : 0 < S.outlineWidth) :
    outlineOps H S =
      (solidStamps H S).map Op.stamp ++ [Op.fillSourceIn S.outlineColor] ∧
    solidStamps H S = (solidRingRadii S).flatMap (solidRing H) ∧
    solidRingRadii S = S.outlineWidth :: radsFrom (S.outlineWidth - 1) ∧
    (∀ r ∈ solidRingRadii S, 0 < r) ∧
    (∀ r : ℚ, solidRing H r = (List.range 72).map fun i =>
      Stamp.mk (H.cos (angleOf H i) * r) (H.sin (angleOf H i) * r)) := by
  refine ⟨?_, ?_, rfl, ?_, fun r => rfl⟩
  · simp [outlineOps, hs, hw]
  · unfold solidStamps solidRingRadii
    rw [List.flatMap_cons]
  · intro r hr
    rcases List.mem_cons.mp hr with h | h
    · rwa [h]
    · exact ringRadii_pos _ _ _ h

/-- Witness for C3 (amended) at the default solid settings. -/
theorem solid_ring_order_witness :
    solidStamps H0 Ssolid8 = (solidRingRadii Ssolid8).flatMap (solidRing H0) ∧
    outlineOps H0 Ssolid8 =
      (solidStamps H0 Ssolid8).map Op.stamp ++
        [Op.fillSourceIn Ssolid8.outlineColor] :=
  ⟨(solid_ring_order H0 Ssolid8 rfl (by decide)).2.1,
   (solid_ring_order H0 Ssolid8 rfl (by decide)).1⟩

/-- Counterexample to C3 as stated: at the default solid settings the ring
radii the code visits are 8, 7, 5, 3, 1 — after the outermost ring the loop
steps from outlineWidth − 1 = 7 — whereas the claimed sequence stepping
from outlineWidth = 8 is 8, 8, 6, 4, 2. -/
theorem solid_ring_order_cx :
    solidRingRadii Ssolid8 ≠ specSolidRingRadii Ssolid8 := by
  have em1 : radsFrom (-1 : ℚ) = [] := by
    rw [radsFrom_rec]
    norm_num
  have e1 : radsFrom (1 : ℚ) = [1] := by
    rw [radsFrom_rec]
    norm_num [em1]
  have e3 : radsFrom (3 : ℚ) = [3, 1] := by
    rw [radsFrom_rec]
    norm_num [e1]
  have e5 : radsFrom (5 : ℚ) = [5, 3, 1] := by
    rw [radsFrom_rec]
    norm_num [e3]
  have e7 : radsFrom (7 : ℚ) = [7, 5, 3, 1] := by
    rw [radsFrom_rec]
    norm_num [e5]
  have e0 : radsFrom (0 : ℚ) = [] := by
    rw [radsFrom_rec]
    norm_num
  have e2 : radsFrom (2 : ℚ) = [2] := by
    rw [radsFrom_rec]
    norm_num [e0]
  have e4 : radsFrom (4 : ℚ) = [4, 2] := by
    rw [radsFrom_rec]
    norm_num [e2]
  have e6 : radsFrom (6 : ℚ) = [6, 4, 2] := by
    rw [radsFrom_rec]
    norm_num [e4]
  have e8 : radsFrom (8 : ℚ) = [8, 6, 4, 2] := by
    rw [radsFrom_rec]
    norm_num [e6]
  norm_num [solidRingRadii, specSolidRingRadii, Ssolid8, e7, e8]

/-- C5: the source-in fill with the opaque outline color keeps every pixel's
alpha exactly as dilation produced it, sets the straight color channels of
every covered pixel (alpha > 0) exactly to the fill color, leaves every
pixel outside the dilated coverage fully transparent, and with a positive
outline width either outline branch ends its pass with exactly this fill of
the outline color. -/
theorem fill_recolors_silhouette (c : Color) (layer : ℤ × ℤ → Pma)
    (p : ℤ × ℤ) (H : Host) (S : StickerSettings)
    (hw : 0 < S.outlineWidth) :
    (fillRectSourceIn c layer p).a = (layer p).a ∧
    (0 < (layer p).a → straightColor (fillRectSourceIn c layer p) = c) ∧
    ((layer p).a = 0 → fillRectSourceIn c layer p = Pma.mk 0 0 0 0) ∧
    Op.fillSourceIn S.outlineColor ∈ outlineOps H S := by
  refine ⟨?_, ?_, ?_, ?_⟩
  · simp [fillRectSourceIn, sourceInPx, opaquePx]
  · intro ha
    have hne : (layer p).a ≠ 0 := ha.ne'
    simp [fillRectSourceIn, sourceInPx, opaquePx, straightColor,
      mul_div_cancel_right₀, hne]
  · intro ha
    simp [fillRectSourceIn, sourceInPx, opaquePx, ha]
  · by_cases hsol : S.outlineStyle = OutlineStyle.solid
    · simp [outlineOps, hsol, hw]
    · simp [outlineOps, hsol, hw]

/-- Witness for C5 on a fully covered layer with the white fill color, at
the default solid settings. -/
theorem fill_recolors_silhouette_witness :
    (fillRectSourceIn white redLayer (0, 0)).a = (redLayer (0, 0)).a ∧
    straightColor (fillRectSourceIn white redLayer (0, 0)) = white ∧
    Op.fillSourceIn Ssolid8.outlineColor ∈ outlineOps H0 Ssolid8 :=
  ⟨(fill_recolors_silhouette white redLayer (0, 0) H0 Ssolid8 (by decide)).1,
   (fill_recolors_silhouette white redLayer (0, 0) H0 Ssolid8
     (by decide)).2.1 (by decide),
   (fill_recolors_silhouette white redLayer (0, 0) H0 Ssolid8
     (by decide)).2.2.2⟩

/-- C6 (amended): the float shadow preset adds exactly 30 px in total to
each canvas dimension beyond the outline padding — 15 px of margin per side
since the source stays centered — and the final draw of the source carries
shadow blur 28, offset (0, 12), black at 0.18 alpha, matching the float
preset row. -/
theorem float_shadow_margin (H : Host) (sw sh : ℚ) (S : StickerSettings)
    (h : S.shadowStyle = ShadowStyle.float) :
    canvasWidth sw S = sw + 2 * pad S + 30 ∧
    canvasHeight sh S = sh + 2 * pad S + 30 ∧
    (canvasWidth sw S - sw) / 2 = pad S + 15 ∧
    (canvasHeight sh S - sh) / 2 = pad S + 15 ∧
    shadowPreset S.shadowStyle =
      some (ShadowParams.mk 28 0 12 (Color.mk 0 0 0) 0.18) ∧
    (render H sw sh S).ops.getLast? =
      some (Op.drawTop (shadowPreset S.shadowStyle)) := by
  have hsp : shadowPad S = 30 := by
    simp [shadowPad, h]
  refine ⟨?_, ?_, ?_, ?_, ?_, getLast_append_singleton _ _⟩
  · simp only [canvasWidth, hsp]
    ring
  · simp only [canvasHeight, hsp]
    ring
  · simp only [canvasWidth, hsp]
    ring
  · simp only [canvasHeight, hsp]
    ring
  · rw [h]
    rfl

/-- Witness for C6 (amended) at the solid settings with the float shadow on
a 100 × 100 source. -/
theorem float_shadow_margin_witness :
    canvasWidth 100 SfloatEx = 100 + 2 * pad SfloatEx + 30 ∧
    (canvasWidth 100 SfloatEx - 100) / 2 = pad SfloatEx + 15 ∧
    shadowPreset SfloatEx.shadowStyle =
      some (ShadowParams.mk 28 0 12 (Color.mk 0 0 0) 0.18) :=
  ⟨(float_shadow_margin H0 100 100 SfloatEx rfl).1,
   (float_shadow_margin H0 100 100 SfloatEx rfl).2.2.1,
   (float_shadow_margin H0 100 100 SfloatEx rfl).2.2.2.2.1⟩

/-- Counterexample to C6 as stated: with the float shadow at the default
solid settings on a 100-wide source, the margin each side beyond the source
is pad + 15 = 27, not pad + 30 = 42 — the 30 px of shadow margin is added
once to each dimension, not once per side. -/
theorem float_shadow_margin_cx :
    (canvasWidth 100 SfloatEx - 100) / 2 ≠ pad SfloatEx + 30 := by
  have h1 : SfloatEx.outlineWidth + wobbleExtra SfloatEx + 4 = 12 := by
    norm_num [wobbleExtra, SfloatEx]
  have hpad : pad SfloatEx = 12 := by
    unfold pad
    rw [h1]
    exact max_eq_left (by norm_num)
  have hsp : shadowPad SfloatEx = 30 := by decide
  have hcw : canvasWidth 100 SfloatEx = 154 := by
    unfold canvasWidth
    rw [hpad, hsp]
    norm_num
  rw [hcw, hpad]
  norm_num

/-- Helper: the pad computation is monotone componentwise for non-negative
inputs with a fixed style. -/
theorem pad_le_pad (S T : StickerSettings)
    (hstyle : T.outlineStyle = S.outlineStyle)
    (hw0 : 0 ≤ S.outlineWidth) (hm0 : 0 ≤ S.masterAmp)
    (h10 : 0 ≤ S.wave1.amp) (h20 : 0 ≤ S.wave2.amp) (h30 : 0 ≤ S.wave3.amp)
    (hw : S.outlineWidth ≤ T.outlineWidth) (hm : S.masterAmp ≤ T.masterAmp)
    (h1 : S.wave1.amp ≤ T.wave1.amp) (h2 : S.wave2.amp ≤ T.wave2.amp)
    (h3 : S.wave3.amp ≤ T.wave3.amp) :
    pad S ≤ pad T := by
  unfold pad wobbleExtra
  rw [hstyle]
  by_cases hsol : S.outlineStyle = OutlineStyle.solid
  · rw [if_pos hsol, if_pos hsol]
    apply max_le_max _ le_rfl
    linarith
  · rw [if_neg hsol, if_neg hsol]
    apply max_le_max _ le_rfl
    have hsum0 : (0 : ℚ) ≤ S.wave1.amp + S.wave2.amp + S.wave3.amp := by
      linarith
    have hsumT : S.wave1.amp + S.wave2.amp + S.wave3.amp ≤
        T.wave1.amp + T.wave2.amp + T.wave3.amp := by
      linarith
    have key : S.outlineWidth * S.masterAmp *
        (S.wave1.amp + S.wave2.amp + S.wave3.amp) ≤
        T.outlineWidth * T.masterAmp *
          (T.wave1.amp + T.wave2.amp + T.wave3.amp) := by
      apply mul_le_mul _ hsumT hsum0
      · exact mul_nonneg (hw0.trans hw) (hm0.trans hm)
      · exact mul_le_mul hw hm hm0 (hw0.trans hw)
    linarith

/-- C7: the padding computation is deterministic and, for non-negative
inputs, monotonic: increasing the outline width, any single wave amplitude,
or the master amplitude never decreases the computed pad, for solid and
wave styles alike. -/
theorem pad_monotone (S : StickerSettings)
    (hw : 0 ≤ S.outlineWidth) (hm : 0 ≤ S.masterAmp)
    (h1 : 0 ≤ S.wave1.amp) (h2 : 0 ≤ S.wave2.amp) (h3 : 0 ≤ S.wave3.amp) :
    (∀ S' : StickerSettings, S' = S → pad S' = pad S) ∧
    (∀ w', S.outlineWidth ≤ w' →
      pad S ≤ pad { S with outlineWidth := w' }) ∧
    (∀ a', S.wave1.amp ≤ a' →
      pad S ≤ pad { S with wave1 := WaveParams.mk S.wave1.freq a' }) ∧
    (∀ a', S.wave2.amp ≤ a' →
      pad S ≤ pad { S with wave2 := WaveParams.mk S.wave2.freq a' }) ∧
    (∀ a', S.wave3.amp ≤ a' →
      pad S ≤ pad { S with wave3 := WaveParams.mk S.wave3.freq a' }) ∧
    (∀ m', S.masterAmp ≤ m' → pad S ≤ pad { S with masterAmp := m' }) := by
  refine ⟨fun S' hS' => by rw [hS'], ?_, ?_, ?_, ?_, ?_⟩
  · intro w' hw'
    exact pad_le_pad S _ rfl hw hm h1 h2 h3 hw' le_rfl le_rfl le_rfl le_rfl
  · intro a' ha'
    exact pad_le_pad S _ rfl hw hm h1 h2 h3 le_rfl le_rfl ha' le_rfl le_rfl
  · intro a' ha'
    exact pad_le_pad S _ rfl hw hm h1 h2 h3 le_rfl le_rfl le_rfl ha' le_rfl
  · intro a' ha'
    exact pad_le_pad S _ rfl hw hm h1 h2 h3 le_rfl le_rfl le_rfl le_rfl ha'
  · intro m' hm'
    exact pad_le_pad S _ rfl hw hm h1 h2 h3 le_rfl hm' le_rfl le_rfl le_rfl

/-- Witness for C7 at integer-amplitude wobbly settings: raising the
outline width from 8 to 9 and the master amplitude from 2 to 3 do not
decrease the pad. -/
theorem pad_monotone_witness :
    pad Sint ≤ pad { Sint with outlineWidth := 9 } ∧
    pad Sint ≤ pad { Sint with masterAmp := 3 } :=
  ⟨(pad_monotone Sint (by decide) (by decide) (by decide) (by decide)
      (by decide)).2.1 9 (by decide),
   (pad_monotone Sint (by decide) (by decide) (by decide) (by decide)
      (by decide)).2.2.2.2.2 3 (by decide)⟩

end StickerMaker
